import Mathlib

/-!
# Verification of the IceFireDB-SQLProxy p2p discovery module

A shallow embedding, in Lean 4, of `IceFireDB-SQLProxy/pkg/p2p/p2p.go`:
the service content-identifier derivation (`generateCID`), the DHT
bootstrap joiner (`bootstrapDHT`), the discovered-peer connection handler
(`handlePeerDiscovery`) and the two discovery entry points
(`AdvertiseConnect`, `AnnounceConnect`).

External collaborators are embedded from their documented behaviour:
the Go standard library SHA-256 (FIPS 180-4), the `mr-tron/base58`
encoder/decoder over the Bitcoin alphabet, and the `go-multihash`
validation performed by `FromB58String` (base58 decode followed by a
`Cast` that reads two unsigned varints and checks the digest length).
Stateful and concurrent parts (goroutines, channels, the wait group and
atomic counters of the joiner) are embedded as explicit finite traces:
a channel that is eventually closed is a finite list of the values it
delivered, and the final values of the atomically updated counters are
computed by structural recursion over the bootstrap peer list.
-/

namespace IceFireP2P

/-! ## SHA-256 (Go `crypto/sha256`, per FIPS 180-4), over byte lists -/

/-- Truncation to a 32-bit word. -/
def w32 (n : Nat) : Nat := n % 4294967296

/-- Right rotation of a 32-bit word by `k` bits. -/
def rotr32 (k x : Nat) : Nat := w32 ((x >>> k) ||| (x <<< (32 - k)))

/-- FIPS 180-4 `Ch` function; complement is xor with the all-ones word. -/
def ch (x y z : Nat) : Nat := (x &&& y) ^^^ ((x ^^^ 4294967295) &&& z)

/-- FIPS 180-4 `Maj` function. -/
def maj (x y z : Nat) : Nat := (x &&& y) ^^^ (x &&& z) ^^^ (y &&& z)

/-- FIPS 180-4 Sigma0 (used on the `a` register). -/
def bigSigma0 (x : Nat) : Nat := rotr32 2 x ^^^ rotr32 13 x ^^^ rotr32 22 x

/-- FIPS 180-4 Sigma1 (used on the `e` register). -/
def bigSigma1 (x : Nat) : Nat := rotr32 6 x ^^^ rotr32 11 x ^^^ rotr32 25 x

/-- FIPS 180-4 sigma0 (message schedule). -/
def smallSigma0 (x : Nat) : Nat := rotr32 7 x ^^^ rotr32 18 x ^^^ (x >>> 3)

/-- FIPS 180-4 sigma1 (message schedule). -/
def smallSigma1 (x : Nat) : Nat := rotr32 17 x ^^^ rotr32 19 x ^^^ (x >>> 10)

/-- The 64 SHA-256 round constants, eight rounds per group. -/
def shaK : List Nat :=
  [0x428a2f98, 0x71374491, 0xb5c0fbcf, 0xe9b5dba5, 0x3956c25b, 0x59f111f1, 0x923f82a4,
   0xab1c5ed5] ++
  [0xd807aa98, 0x12835b01, 0x243185be, 0x550c7dc3, 0x72be5d74, 0x80deb1fe, 0x9bdc06a7,
   0xc19bf174] ++
  [0xe49b69c1, 0xefbe4786, 0x0fc19dc6, 0x240ca1cc, 0x2de92c6f, 0x4a7484aa, 0x5cb0a9dc,
   0x76f988da] ++
  [0x983e5152, 0xa831c66d, 0xb00327c8, 0xbf597fc7, 0xc6e00bf3, 0xd5a79147, 0x06ca6351,
   0x14292967] ++
  [0x27b70a85, 0x2e1b2138, 0x4d2c6dfc, 0x53380d13, 0x650a7354, 0x766a0abb, 0x81c2c92e,
   0x92722c85] ++
  [0xa2bfe8a1, 0xa81a664b, 0xc24b8b70, 0xc76c51a3, 0xd192e819, 0xd6990624, 0xf40e3585,
   0x106aa070] ++
  [0x19a4c116, 0x1e376c08, 0x2748774c, 0x34b0bcb5, 0x391c0cb3, 0x4ed8aa4a, 0x5b9cca4f,
   0x682e6ff3] ++
  [0x748f82ee, 0x78a5636f, 0x84c87814, 0x8cc70208, 0x90befffa, 0xa4506ceb, 0xbef9a3f7,
   0xc67178f2]

/-- The eight SHA-256 working registers. -/
structure Regs where
  a : Nat
  b : Nat
  c : Nat
  d : Nat
  e : Nat
  f : Nat
  g : Nat
  h : Nat
deriving DecidableEq, Repr

/-- The SHA-256 initial hash value. -/
def shaH0 : Regs :=
  ⟨0x6a09e667, 0xbb67ae85, 0x3c6ef372, 0xa54ff53a, 0x510e527f, 0x9b05688c, 0x1f83d9ab, 0x5be0cd19⟩

/-- Big-endian byte expansion: `beBytes n k` is the `n`-byte big-endian
encoding of `k % 2^(8n)`. -/
def beBytes : Nat → Nat → List Nat
  | 0, _ => []
  | n + 1, k => beBytes n (k / 256) ++ [k % 256]

/-- SHA-256 message padding: append `0x80`, zero bytes up to 56 mod 64,
then the 8-byte big-endian bit length. -/
def padMessage (msg : List Nat) : List Nat :=
  let l := msg.length
  let zeros := (119 - l % 64) % 64
  msg ++ [0x80] ++ List.replicate zeros 0 ++ beBytes 8 (8 * l)

/-- Group bytes into big-endian 32-bit words (four bytes per word). -/
def toWords : List Nat → List Nat
  | b0 :: b1 :: b2 :: b3 :: rest => (((b0 * 256 + b1) * 256 + b2) * 256 + b3) :: toWords rest
  | _ => []

/-- Split a word list into blocks of sixteen words; the first argument is
fuel (the number of blocks). -/
def toBlocks : Nat → List Nat → List (List Nat)
  | 0, _ => []
  | n + 1, ws => ws.take 16 :: toBlocks n (ws.drop 16)

/-- Extend the sixteen block words to the 64-entry message schedule; the
accumulator holds the schedule so far, most recent word first. -/
def extendW : Nat → List Nat → List Nat
  | 0, acc => acc
  | n + 1, acc =>
    let w2 := acc.getD 1 0
    let w7 := acc.getD 6 0
    let w15 := acc.getD 14 0
    let w16 := acc.getD 15 0
    extendW n (w32 (smallSigma1 w2 + w7 + smallSigma0 w15 + w16) :: acc)

/-- The 64-entry message schedule of one block. -/
def schedule (block : List Nat) : List Nat := (extendW 48 block.reverse).reverse

/-- One SHA-256 compression round. -/
def compressRound (st : Regs) (k w : Nat) : Regs :=
  let t1 := w32 (st.h + bigSigma1 st.e + ch st.e st.f st.g + k + w)
  let t2 := w32 (bigSigma0 st.a + maj st.a st.b st.c)
  ⟨w32 (t1 + t2), st.a, st.b, st.c, w32 (st.d + t1), st.e, st.f, st.g⟩

/-- Process one 16-word block: run the 64 rounds and add the result into
the chaining value. -/
def compressBlock (H : Regs) (block : List Nat) : Regs :=
  let ws := schedule block
  let st := (List.zip shaK ws).foldl (fun st kw => compressRound st kw.1 kw.2) H
  ⟨w32 (H.a + st.a), w32 (H.b + st.b), w32 (H.c + st.c), w32 (H.d + st.d),
   w32 (H.e + st.e), w32 (H.f + st.f), w32 (H.g + st.g), w32 (H.h + st.h)⟩

/-- Serialize the eight hash registers as 32 big-endian bytes. -/
def regsBytes (H : Regs) : List Nat :=
  beBytes 4 H.a ++ beBytes 4 H.b ++ beBytes 4 H.c ++ beBytes 4 H.d ++
  beBytes 4 H.e ++ beBytes 4 H.f ++ beBytes 4 H.g ++ beBytes 4 H.h

/-- SHA-256 of a byte list: pad, compress every block, serialize the final
state big-endian. -/
def sha256 (msg : List Nat) : List Nat :=
  regsBytes ((toBlocks ((padMessage msg).length / 64) (toWords (padMessage msg))).foldl
    compressBlock shaH0)

/-- UTF-8 encoding of one character (Go `[]byte(string)` semantics). -/
def utf8Bytes (c : Char) : List Nat :=
  let n := c.toNat
  if n < 0x80 then [n]
  else if n < 0x800 then [0xC0 + n / 64, 0x80 + n % 64]
  else if n < 0x10000 then [0xE0 + n / 4096, 0x80 + n / 64 % 64, 0x80 + n % 64]
  else [0xF0 + n / 262144, 0x80 + n / 4096 % 64, 0x80 + n / 64 % 64, 0x80 + n % 64]

/-- The UTF-8 bytes of a string, as Go obtains with `[]byte(s)`. -/
def strBytes (s : String) : List Nat := s.data.foldr (fun c acc => utf8Bytes c ++ acc) []

/-! ## Base58 (`mr-tron/base58`, Bitcoin alphabet) -/

/-- The Bitcoin base58 alphabet used by `mr-tron/base58`. -/
def b58Alphabet : List Char :=
  "123456789ABCDEFGHJKLMNPQRSTUVWXYZabcdefghijkmnopqrstuvwxyz".data

/-- The alphabet character of one base58 digit. -/
def b58Char (d : Nat) : Char := b58Alphabet.getD d '?'

/-- The digit value of one character, `none` when the character is not in
the alphabet (the decode error of `mr-tron/base58`). -/
def b58Val (c : Char) : Option Nat := b58Alphabet.findIdx? (fun a => a = c)

/-- Little-endian base-`k` digits of `n`, computed with explicit fuel so the
definition is structural; `digitsFuel k n n` is the full digit list. -/
def digitsFuel (k : Nat) : Nat → Nat → List Nat
  | 0, _ => []
  | _ + 1, 0 => []
  | fuel + 1, n + 1 => (n + 1) % k :: digitsFuel k fuel ((n + 1) / k)

/-- Big-endian minimal base-`k` digit expansion of a natural number. -/
def natDigitsBE (k n : Nat) : List Nat := (digitsFuel k n n).reverse

/-- The number of leading zero bytes, each encoded as `'1'` by base58. -/
def leadingZeroBytes : List Nat → Nat
  | [] => 0
  | b :: rest => if b = 0 then leadingZeroBytes rest + 1 else 0

/-- The number of leading `'1'` characters of a base58 string. -/
def leadingOneChars : List Char → Nat
  | [] => 0
  | c :: rest => if c = '1' then leadingOneChars rest + 1 else 0

/-- A byte list read as a big-endian number (the accumulation loop of the
base58 encoder). -/
def bytesToNat (bs : List Nat) : Nat := bs.foldl (fun a b => a * 256 + b) 0

/-- `mr-tron/base58` encoding: one `'1'` per leading zero byte, then the
big-endian base58 digits of the value of the byte string. -/
def b58Encode (bs : List Nat) : List Char :=
  List.replicate (leadingZeroBytes bs) '1' ++ (natDigitsBE 58 (bytesToNat bs)).map b58Char

/-- Digit values of a base58 string; `none` as soon as one character is
invalid. -/
def b58Vals : List Char → Option (List Nat)
  | [] => some []
  | c :: rest =>
    match b58Val c, b58Vals rest with
    | some v, some vs => some (v :: vs)
    | _, _ => none

/-- `mr-tron/base58` decoding: fails on a character outside the alphabet;
otherwise restores one zero byte per leading `'1'` followed by the
big-endian bytes of the accumulated value. -/
def b58Decode (s : List Char) : Option (List Nat) :=
  match b58Vals s with
  | none => none
  | some vals =>
    some (List.replicate (leadingOneChars s) 0 ++
          natDigitsBE 256 (vals.foldl (fun a v => a * 58 + v) 0))

/-! ## Multihash validation and CID construction
(`go-multihash` `FromB58String`, `go-cid` `NewCidV1`) -/

/-- Go `binary.Uvarint` over a byte list: `s` is the current shift, `x` the
accumulated value; `none` when the bytes run out before a terminating
byte below `0x80`. -/
def readUvarintAux : List Nat → Nat → Nat → Option (Nat × List Nat)
  | [], _, _ => none
  | b :: rest, s, x =>
    if b < 128 then some (x ||| (b <<< s), rest)
    else readUvarintAux rest (s + 7) (x ||| ((b &&& 127) <<< s))

/-- Read one unsigned varint from the front of a byte list. -/
def readUvarint (bs : List Nat) : Option (Nat × List Nat) := readUvarintAux bs 0 0

/-- `go-multihash` `Decode`: a multihash is a varint hash code, a varint
digest length, and exactly that many digest bytes. -/
def decodeMultihash (bs : List Nat) : Option (Nat × Nat × List Nat) :=
  if bs.length < 2 then none
  else
    match readUvarint bs with
    | none => none
    | some (code, r1) =>
      match readUvarint r1 with
      | none => none
      | some (len, digest) => if digest.length = len then some (code, len, digest) else none

/-- `go-multihash` `Cast`: validate the buffer and return it unchanged as
the multihash bytes. -/
def castMultihash (bs : List Nat) : Option (List Nat) :=
  match decodeMultihash bs with
  | none => none
  | some _ => some bs

/-- `go-multihash` `FromB58String`: base58-decode, then `Cast`. -/
def fromB58String (s : List Char) : Option (List Nat) :=
  match b58Decode s with
  | none => none
  | some bs => castMultihash bs

/-- A content identifier as `go-cid` stores it: version, codec, multihash
bytes. -/
structure Cid where
  version : Nat
  codec : Nat
  mhash : List Nat
deriving DecidableEq, Repr

/-- The `generateCID` function of `p2p.go`: SHA-256 the service name,
prefix the codec tag `0x12` and length tag `0x20`, base58-encode, decode
back through `multihash.FromB58String` (whose failure is a fatal exit,
modelled as `none`), and wrap the multihash as a version-1 CID with
codec `12`. -/
def generateCID (namestring : String) : Option Cid :=
  let hash := sha256 (strBytes namestring)
  let finalhash := 0x12 :: 0x20 :: hash
  let b58string := b58Encode finalhash
  match fromB58String b58string with
  | none => none
  | some mulhash => some ⟨1, 12, mulhash⟩

/-! ## Byte-level facts about the digest and the base58 round trip -/

theorem beBytes_length (n : Nat) : ∀ k, (beBytes n k).length = n := by
  induction n with
  | zero => intro k; rfl
  | succ m ih => intro k; simp [beBytes, ih]

theorem beBytes_lt (n : Nat) : ∀ k, ∀ x ∈ beBytes n k, x < 256 := by
  induction n with
  | zero => intro k x hx; simp [beBytes] at hx
  | succ m ih =>
    intro k x hx
    rw [beBytes] at hx
    rcases List.mem_append.mp hx with h | h
    · exact ih _ x h
    · rw [List.mem_singleton] at h
      subst h
      exact Nat.mod_lt _ (by omega)

theorem regsBytes_length (H : Regs) : (regsBytes H).length = 32 := by
  simp [regsBytes, beBytes_length]

theorem all_lt_append {l1 l2 : List Nat} (h1 : ∀ x ∈ l1, x < 256) (h2 : ∀ x ∈ l2, x < 256) :
    ∀ x ∈ l1 ++ l2, x < 256 := by
  intro x hx
  rcases List.mem_append.mp hx with h | h
  · exact h1 x h
  · exact h2 x h

theorem regsBytes_lt (H : Regs) : ∀ x ∈ regsBytes H, x < 256 := by
  rw [regsBytes]
  exact all_lt_append (all_lt_append (all_lt_append (all_lt_append (all_lt_append
    (all_lt_append (all_lt_append (beBytes_lt 4 _) (beBytes_lt 4 _)) (beBytes_lt 4 _))
    (beBytes_lt 4 _)) (beBytes_lt 4 _)) (beBytes_lt 4 _)) (beBytes_lt 4 _)) (beBytes_lt 4 _)

theorem sha256_length (msg : List Nat) : (sha256 msg).length = 32 := by
  rw [sha256]; exact regsBytes_length _

theorem sha256_lt (msg : List Nat) : ∀ x ∈ sha256 msg, x < 256 := by
  rw [sha256]; exact regsBytes_lt _

theorem digitsFuel_eq {k : Nat} (hk : 2 ≤ k) :
    ∀ fuel n, n ≤ fuel → digitsFuel k fuel n = Nat.digits k n := by
  intro fuel
  induction fuel with
  | zero =>
    intro n hn
    have hn0 : n = 0 := Nat.le_zero.mp hn
    subst hn0
    simp [digitsFuel]
  | succ f ih =>
    intro n hn
    match n with
    | 0 => simp [digitsFuel]
    | m + 1 =>
      rw [digitsFuel, Nat.digits_def' (by omega : 1 < k) (Nat.succ_pos m)]
      have hdiv : (m + 1) / k < m + 1 := Nat.div_lt_self (Nat.succ_pos m) (by omega)
      rw [ih ((m + 1) / k) (by omega)]

theorem natDigitsBE_eq {k : Nat} (hk : 2 ≤ k) (n : Nat) :
    natDigitsBE k n = (Nat.digits k n).reverse := by
  rw [natDigitsBE, digitsFuel_eq hk n n (Nat.le_refl n)]

theorem foldl_mul_add (k : Nat) :
    ∀ (l : List Nat) (a : Nat),
      l.foldl (fun x d => x * k + d) a = a * k ^ l.length + Nat.ofDigits k l.reverse := by
  intro l
  induction l with
  | nil => intro a; simp [Nat.ofDigits]
  | cons d t ih =>
    intro a
    rw [List.foldl_cons, ih, List.reverse_cons, Nat.ofDigits_append,
        Nat.ofDigits_singleton, List.length_reverse, List.length_cons]
    ring

theorem bytesToNat_eq (bs : List Nat) : bytesToNat bs = Nat.ofDigits 256 bs.reverse := by
  rw [bytesToNat, foldl_mul_add]
  simp

theorem b58Val_b58Char : ∀ d < 58, b58Val (b58Char d) = some d := by decide

theorem b58Char_ne_one : ∀ d < 58, d ≠ 0 → b58Char d ≠ '1' := by decide

theorem b58Vals_map (l : List Nat) (hl : ∀ d ∈ l, d < 58) :
    b58Vals (l.map b58Char) = some l := by
  induction l with
  | nil => rfl
  | cons d t ih =>
    rw [List.map_cons, b58Vals, b58Val_b58Char d (hl d (List.mem_cons_self d t)),
        ih (fun x hx => hl x (List.mem_cons_of_mem d hx))]

/-- The base58 round trip of `mr-tron/base58` on a byte string with a
nonzero leading byte: decoding the encoding restores the bytes exactly. -/
theorem b58_roundtrip (h : Nat) (rest : List Nat) (hh0 : h ≠ 0) (hh : h < 256)
    (hr : ∀ x ∈ rest, x < 256) :
    b58Decode (b58Encode (h :: rest)) = some (h :: rest) := by
  have hdig : ∀ x ∈ rest.reverse ++ [h], x < 256 := by
    intro x hx
    rcases List.mem_append.mp hx with hx | hx
    · exact hr x (List.mem_reverse.mp hx)
    · rw [List.mem_singleton] at hx; subst hx; exact hh
  have hlast : ∀ hne : rest.reverse ++ [h] ≠ [], (rest.reverse ++ [h]).getLast hne ≠ 0 := by
    intro hne
    rw [List.getLast_concat]
    exact hh0
  have hN : bytesToNat (h :: rest) = Nat.ofDigits 256 (rest.reverse ++ [h]) := by
    rw [bytesToNat_eq, List.reverse_cons]
  have hNd : Nat.digits 256 (bytesToNat (h :: rest)) = rest.reverse ++ [h] := by
    rw [hN, Nat.digits_ofDigits 256 (by omega) _ hdig hlast]
  have hN0 : bytesToNat (h :: rest) ≠ 0 := by
    intro h0
    have h1 := hNd
    rw [h0, Nat.digits_zero] at h1
    simp at h1
  have hzero : leadingZeroBytes (h :: rest) = 0 := by
    rw [leadingZeroBytes, if_neg hh0]
  set N := bytesToNat (h :: rest) with hNdef
  have hd58 : ∀ d ∈ (Nat.digits 58 N).reverse, d < 58 := by
    intro d hd
    exact Nat.digits_lt_base (by omega) (List.mem_reverse.mp hd)
  have henc : b58Encode (h :: rest) = ((Nat.digits 58 N).reverse).map b58Char := by
    rw [b58Encode, hzero, List.replicate_zero, List.nil_append,
        natDigitsBE_eq (by omega : 2 ≤ 58)]
  have hne58 : Nat.digits 58 N ≠ [] := Nat.digits_ne_nil_iff_ne_zero.mpr hN0
  have hones : leadingOneChars (((Nat.digits 58 N).reverse).map b58Char) = 0 := by
    have hhead : (Nat.digits 58 N).reverse.head? = some ((Nat.digits 58 N).getLast hne58) := by
      rw [List.head?_reverse, List.getLast?_eq_getLast _ hne58]
    match hrev : (Nat.digits 58 N).reverse with
    | [] => rw [hrev] at hhead; exact absurd hhead (by simp)
    | d :: t =>
      rw [hrev] at hhead
      have hdval : d = (Nat.digits 58 N).getLast hne58 := by
        simpa using hhead
      have hd0 : d ≠ 0 := by
        rw [hdval]
        exact Nat.getLast_digit_ne_zero 58 hN0
      have hdlt : d < 58 := hd58 d (by rw [hrev]; exact List.mem_cons_self d t)
      rw [List.map_cons, leadingOneChars, if_neg (b58Char_ne_one d hdlt hd0)]
  have hfold : ((Nat.digits 58 N).reverse).foldl (fun a v => a * 58 + v) 0 = N := by
    rw [foldl_mul_add, List.reverse_reverse, Nat.ofDigits_digits]
    simp
  rw [henc]
  simp only [b58Decode, b58Vals_map _ hd58, hones, hfold]
  rw [natDigitsBE_eq (by omega : 2 ≤ 256), hNd]
  simp

/-- The multihash validation of `go-multihash` accepts the 34-byte buffer
`0x12, 0x20, digest` whenever the digest is 32 bytes long. -/
theorem castMultihash_tag (digest : List Nat) (hlen : digest.length = 32) :
    castMultihash (0x12 :: 0x20 :: digest) = some (0x12 :: 0x20 :: digest) := by
  simp [castMultihash, decodeMultihash, readUvarint, readUvarintAux, hlen]

/-- `generateCID` never takes its fatal branch and produces exactly the
version-1 CID with codec 12 whose multihash bytes are the two tag bytes
followed by the SHA-256 digest of the UTF-8 bytes of the name. -/
theorem generateCID_eq (s : String) :
    generateCID s = some ⟨1, 12, 0x12 :: 0x20 :: sha256 (strBytes s)⟩ := by
  have hrt := b58_roundtrip 0x12 (0x20 :: sha256 (strBytes s)) (by omega) (by omega)
    (by
      intro x hx
      rcases List.mem_cons.mp hx with hx | hx
      · subst hx; omega
      · exact sha256_lt _ x hx)
  have hcast := castMultihash_tag _ (sha256_length (strBytes s))
  simp only [generateCID, fromB58String, hrt, hcast]

/-! ## The p2p node model

Opaque libp2p values are embedded as plain data: a peer identifier is a
natural number, a bootstrap multiaddr is an opaque value whose parse is a
function of the environment, and the outcome of a dial is a Boolean
supplied by the environment. A channel that the producer eventually
closes is the finite list of values it delivers before closing. -/

/-- An opaque bootstrap multiaddr (`multiaddr.Multiaddr`). -/
abbrev BootEntry : Type := Nat

/-- `peer.AddrInfo`: an identifier and the addresses of one peer. -/
structure AddrInfo where
  ID : Nat
  Addrs : List Nat
deriving DecidableEq, Repr

/-- The libp2p host handle; only its identifier is observable here. -/
structure HostHandle where
  ID : Nat
deriving DecidableEq, Repr

/-- The state of a Go context: the node root context can be cancelled,
`context.Background()` cannot. -/
structure ContextState where
  cancelled : Bool
deriving DecidableEq, Repr

/-- Which context value a dial receives: the fresh background context or
the node root context. -/
inductive ConnCtx where
  | background
  | node (st : ContextState)
deriving DecidableEq, Repr

/-- One `Connect` call issued by the peer-discovery handler: the context
it was given, the peer dialled, and whether the dial succeeded. -/
structure ConnectCall where
  ctx : ConnCtx
  peerInfo : AddrInfo
  ok : Bool
deriving DecidableEq, Repr

/-- How one invocation of `bootstrapDHT` ends: a fatal log-and-exit when
the initial DHT bootstrap protocol fails, a crash when a nil address
info obtained from a failed parse is dereferenced inside a connect
goroutine, or normal completion reporting the two counters. -/
inductive BootOutcome where
  | fatal
  | crash
  | done (attempted : Nat) (connected : Nat)
deriving DecidableEq, Repr

/-- The bootstrap connect loop of `bootstrapDHT`: one goroutine per entry,
a wait-for-all barrier, an unconditionally incremented total counter and
an atomically incremented success counter. The final counter values are
order-independent, so the loop is embedded as structural recursion.
`parse` embeds `peer.AddrInfoFromP2pAddr`, whose error return is
discarded by the source (`peerinfo, _ := ...`); on a parse failure the
source dereferences the nil pointer `*peerinfo`, which is the `none`
(crash) case here. -/
def bootConnectLoop (parse : BootEntry → Option AddrInfo) (connect : AddrInfo → Bool) :
    List BootEntry → Option (Nat × Nat)
  | [] => some (0, 0)
  | e :: rest =>
    match parse e with
    | none => none
    | some info =>
      match bootConnectLoop parse connect rest with
      | none => none
      | some (t, c) => some (t + 1, if connect info then c + 1 else c)

/-- `bootstrapDHT` of `p2p.go`: `kaddht.Bootstrap` first (its failure is a
`logrus.Fatalln`), then the concurrent connect loop over the bootstrap
peer list, then `wg.Wait()` and the counter report. -/
def bootstrapDHT (bootstrapErr : Bool) (entries : List BootEntry)
    (parse : BootEntry → Option AddrInfo) (connect : AddrInfo → Bool) : BootOutcome :=
  if bootstrapErr then BootOutcome.fatal
  else
    match bootConnectLoop parse connect entries with
    | none => BootOutcome.crash
    | some (t, c) => BootOutcome.done t c

/-- `handlePeerDiscovery` of `p2p.go`: drain the peer channel until it is
closed; skip an entry whose identifier equals the local host identifier;
dial every other entry with `context.Background()`; log and continue on
a failed dial. The returned list is the sequence of `Connect` calls the
handler issues. -/
def handlePeerDiscovery (nodehost : HostHandle) (connect : AddrInfo → Bool) :
    List AddrInfo → List ConnectCall
  | [] => []
  | p :: rest =>
    if p.ID = nodehost.ID then handlePeerDiscovery nodehost connect rest
    else { ctx := ConnCtx.background, peerInfo := p, ok := connect p } ::
      handlePeerDiscovery nodehost connect rest

/-- The `P2P` structure of `p2p.go`; `KadDHT`, `Discovery` and `PubSub`
are opaque handles. -/
structure P2P where
  Ctx : ContextState
  Host : HostHandle
  KadDHT : Nat
  Discovery : Nat
  PubSub : Nat
  service : String
deriving DecidableEq, Repr

/-- The externally observable events of one discovery entry point, in
program order. -/
inductive Event where
  | advertiseCall (ctx : ContextState) (service : String)
  | debugLog (msg : String)
  | debugTTL (ttl : Nat)
  | sleepSecs (n : Nat)
  | findPeersCall (ctx : ContextState) (service : String)
  | fatalErrorLog (msg : String) (err : String)
  | provideCall (ctx : ContextState) (c : Cid)
  | findProvidersCall (ctx : ContextState) (c : Cid)
  | spawnHandler (calls : List ConnectCall)
deriving DecidableEq, Repr

/-- Process outcome of a discovery entry point: normal return, or process
abort through `logrus.Fatalln`. -/
inductive Outcome where
  | ok
  | fatal
deriving DecidableEq, Repr

/-- The behaviour of the external discovery substrate during one run:
results of `Advertise`, `FindPeers` and `Provide`, the contents of the
discovered-peer channel up to its closure, and the dial outcomes. -/
structure DiscoveryEnv where
  advertiseErr : Option String
  advertiseTTL : Nat
  findPeersErr : Option String
  provideErr : Option String
  peers : List AddrInfo
  connect : AddrInfo → Bool

/-- `AdvertiseConnect` of `p2p.go`: call `Advertise` (its error is
assigned to `err` but never examined before `err` is overwritten by the
`FindPeers` result, so a failed advertisement only shows as the zero
time-to-live in the debug log), sleep five seconds, call `FindPeers`
(fatal on error), and spawn `handlePeerDiscovery` on the peer channel.
The first component of the result is the `P2P` value after the call. -/
def AdvertiseConnect (p2p : P2P) (env : DiscoveryEnv) : P2P × Outcome × List Event :=
  let ttl : Nat :=
    match env.advertiseErr with
    | none => env.advertiseTTL
    | some _ => 0
  let ev := [Event.advertiseCall p2p.Ctx p2p.service,
             Event.debugLog "Advertised the p2p Service.",
             Event.sleepSecs 5,
             Event.debugTTL ttl,
             Event.findPeersCall p2p.Ctx p2p.service]
  match env.findPeersErr with
  | some e => (p2p, Outcome.fatal, ev ++ [Event.fatalErrorLog "P2P Peer Discovery Failed!" e])
  | none =>
    (p2p, Outcome.ok,
      ev ++ [Event.debugLog "Discovered p2p Service Peers.",
             Event.spawnHandler (handlePeerDiscovery p2p.Host env.connect env.peers),
             Event.debugLog "Started Peer Connection Handler."])

/-- `AnnounceConnect` of `p2p.go`: derive the service CID (a failure
inside `generateCID` is a fatal exit), call `KadDHT.Provide` (fatal on
error), sleep five seconds, call `FindProvidersAsync`, and spawn
`handlePeerDiscovery` on the provider channel. The first component of
the result is the `P2P` value after the call. -/
def AnnounceConnect (p2p : P2P) (env : DiscoveryEnv) : P2P × Outcome × List Event :=
  match generateCID p2p.service with
  | none => (p2p, Outcome.fatal,
      [Event.fatalErrorLog "Failed to Generate Service CID!" "invalid multihash"])
  | some cidvalue =>
    let ev := [Event.debugLog "Generated the Service CID.",
               Event.provideCall p2p.Ctx cidvalue]
    match env.provideErr with
    | some e => (p2p, Outcome.fatal,
        ev ++ [Event.fatalErrorLog "Failed to Announce Service CID!" e])
    | none =>
      (p2p, Outcome.ok,
        ev ++ [Event.debugLog "Announced the p2p Service.",
               Event.sleepSecs 5,
               Event.findProvidersCall p2p.Ctx cidvalue,
               Event.spawnHandler (handlePeerDiscovery p2p.Host env.connect env.peers),
               Event.debugLog "Started Peer Connection Handler."])

/-- Whether some log line of a trace carries the error string `e`; the
only log statements of the module that receive an error value are the
`logrus.WithFields(error ...)` calls, embedded as `fatalErrorLog`. -/
def mentionsErr (tr : List Event) (e : String) : Bool :=
  tr.any fun ev =>
    match ev with
    | Event.fatalErrorLog _ err => err == e
    | _ => false

/-- All connect calls recorded in the spawned handlers of a trace. -/
def handlerCallsOf (tr : List Event) : List ConnectCall :=
  tr.foldr (fun ev acc =>
    match ev with
    | Event.spawnHandler calls => calls ++ acc
    | _ => acc) []

/-- Whether a trace contains a spawned peer-connection handler. -/
def hasSpawn (tr : List Event) : Bool :=
  tr.any fun ev =>
    match ev with
    | Event.spawnHandler _ => true
    | _ => false

/-- Whether a trace contains a `FindProvidersAsync` call. -/
def hasFindProviders (tr : List Event) : Bool :=
  tr.any fun ev =>
    match ev with
    | Event.findProvidersCall _ _ => true
    | _ => false

/-! ## Helper lemmas about the model -/

theorem bootConnectLoop_eq (parse : BootEntry → Option AddrInfo) (connect : AddrInfo → Bool) :
    ∀ entries : List BootEntry, (∀ e ∈ entries, (parse e).isSome = true) →
      bootConnectLoop parse connect entries =
        some (entries.length, (entries.filterMap parse).countP connect) := by
  intro entries
  induction entries with
  | nil => intro _; rfl
  | cons e rest ih =>
    intro hall
    obtain ⟨info, hinfo⟩ :=
      Option.isSome_iff_exists.mp (hall e (List.mem_cons_self e rest))
    rw [bootConnectLoop, hinfo, ih (fun x hx => hall x (List.mem_cons_of_mem e hx))]
    rw [List.filterMap_cons, hinfo]
    by_cases hc : connect info = true <;> simp [List.countP_cons, hc, List.length_cons]

theorem hpd_map_peerInfo (nodehost : HostHandle) (connect : AddrInfo → Bool)
    (peers : List AddrInfo) :
    (handlePeerDiscovery nodehost connect peers).map ConnectCall.peerInfo =
      peers.filter (fun p => p.ID != nodehost.ID) := by
  induction peers with
  | nil => rfl
  | cons p rest ih =>
    by_cases h : p.ID = nodehost.ID <;>
      simp [handlePeerDiscovery, List.filter_cons, h, ih]

theorem hpd_ctx_background (nodehost : HostHandle) (connect : AddrInfo → Bool)
    (peers : List AddrInfo) :
    ∀ call ∈ handlePeerDiscovery nodehost connect peers, call.ctx = ConnCtx.background := by
  induction peers with
  | nil => intro call hc; simp [handlePeerDiscovery] at hc
  | cons p rest ih =>
    intro call hc
    rw [handlePeerDiscovery] at hc
    by_cases h : p.ID = nodehost.ID
    · rw [if_pos h] at hc
      exact ih call hc
    · rw [if_neg h] at hc
      rcases List.mem_cons.mp hc with hc | hc
      · rw [hc]
      · exact ih call hc

theorem advertiseConnect_p2p (p2p : P2P) (env : DiscoveryEnv) :
    (AdvertiseConnect p2p env).1 = p2p := by
  cases h : env.findPeersErr <;> simp [AdvertiseConnect, h]

theorem announceConnect_p2p (p2p : P2P) (env : DiscoveryEnv) :
    (AnnounceConnect p2p env).1 = p2p := by
  cases h : env.provideErr <;> simp [AnnounceConnect, generateCID_eq, h]

theorem advertiseConnect_handlerCalls (p2p : P2P) (env : DiscoveryEnv)
    (hfp : env.findPeersErr = none) :
    handlerCallsOf (AdvertiseConnect p2p env).2.2 =
      handlePeerDiscovery p2p.Host env.connect env.peers := by
  simp [AdvertiseConnect, hfp, handlerCallsOf]

theorem announceConnect_handlerCalls (p2p : P2P) (env : DiscoveryEnv)
    (hpr : env.provideErr = none) :
    handlerCallsOf (AnnounceConnect p2p env).2.2 =
      handlePeerDiscovery p2p.Host env.connect env.peers := by
  simp [AnnounceConnect, generateCID_eq, hpr, handlerCallsOf]

/-! ## Concrete sample values used by witnesses and counterexamples -/

/-- A sample node for concrete instantiations. -/
def sampleP2P : P2P :=
  { Ctx := ⟨false⟩, Host := ⟨5⟩, KadDHT := 0, Discovery := 0, PubSub := 0,
    service := "icefiredb-sqlproxy" }

/-- An environment in which `Advertise` fails and everything else
succeeds, with an empty peer channel. -/
def envAdvFail : DiscoveryEnv :=
  { advertiseErr := some "advertise failed", advertiseTTL := 7, findPeersErr := none,
    provideErr := none, peers := [], connect := fun _ => true }

/-- An environment in which `FindPeers` and `Provide` both fail. -/
def envFatal : DiscoveryEnv :=
  { advertiseErr := none, advertiseTTL := 7, findPeersErr := some "no peers",
    provideErr := some "provide refused", peers := [⟨7, [1]⟩], connect := fun _ => true }

/-- An environment in which discovery succeeds and the channel delivers
one remote peer and one copy of the local peer before closing. -/
def envTwoPeers : DiscoveryEnv :=
  { advertiseErr := none, advertiseTTL := 7, findPeersErr := none,
    provideErr := none, peers := [⟨7, [1]⟩, ⟨5, [2]⟩], connect := fun _ => true }

/-! ## The claims -/

/-- C1: `generateCID` is a pure, deterministic function of the service
name: for every service name string, the result is the version-1 content
identifier whose multihash bytes are the tag bytes `0x12` and `0x20`
followed by the 32-byte SHA-256 digest of the name, so two calls with
the same string yield byte-identical identifiers. -/
theorem claim_C1 (s t : String) (hst : s = t) :
    generateCID s = generateCID t ∧
    generateCID s = some ⟨1, 12, 0x12 :: 0x20 :: sha256 (strBytes s)⟩ ∧
    (sha256 (strBytes s)).length = 32 :=
  ⟨hst ▸ rfl, generateCID_eq s, sha256_length (strBytes s)⟩

/-- Witness for C1 at the concrete service name of the sample node. -/
theorem claim_C1_witness :
    generateCID "icefiredb-sqlproxy" = generateCID "icefiredb-sqlproxy" ∧
    generateCID "icefiredb-sqlproxy" =
      some ⟨1, 12, 0x12 :: 0x20 :: sha256 (strBytes "icefiredb-sqlproxy")⟩ ∧
    (sha256 (strBytes "icefiredb-sqlproxy")).length = 32 :=
  claim_C1 "icefiredb-sqlproxy" "icefiredb-sqlproxy" rfl

/-- C2: with a bootstrap set of N entries that all parse, of which
exactly K connect successfully, the joiner reports attempted = N and
succeeded = K; with an empty bootstrap set it completes immediately
reporting 0 and 0. The wait-for-all barrier and the order-independent
atomic counters are embedded as the total recursion `bootConnectLoop`,
which resolves every entry before the counters are reported. -/
theorem claim_C2 (parse : BootEntry → Option AddrInfo) (connect : AddrInfo → Bool)
    (entries : List BootEntry) (hparse : ∀ e ∈ entries, (parse e).isSome = true) :
    bootstrapDHT false entries parse connect =
      BootOutcome.done entries.length ((entries.filterMap parse).countP connect) ∧
    bootstrapDHT false [] parse connect = BootOutcome.done 0 0 := by
  constructor
  · rw [bootstrapDHT, if_neg (by simp), bootConnectLoop_eq parse connect entries hparse]
  · rfl

/-- Witness for C2: three entries, all parsing, two of them reachable. -/
theorem claim_C2_witness :
    bootstrapDHT false [1, 2, 3] (fun e => some ⟨e, []⟩) (fun a => a.ID != 3) =
      BootOutcome.done ([1, 2, 3] : List BootEntry).length
        ((([1, 2, 3] : List BootEntry).filterMap (fun e => some (⟨e, []⟩ : AddrInfo))).countP
          (fun a => a.ID != 3)) ∧
    bootstrapDHT false [] (fun e => some ⟨e, []⟩) (fun a => a.ID != 3) =
      BootOutcome.done 0 0 :=
  claim_C2 (fun e => some ⟨e, []⟩) (fun a => a.ID != 3) [1, 2, 3] (by decide)

/-- C3 as the code behaves: the source discards the parse error of
`peer.AddrInfoFromP2pAddr` and unconditionally dereferences the returned
pointer inside the connect goroutine, so a bootstrap entry that fails to
parse crashes the joiner (nil dereference) instead of being skipped. -/
theorem claim_C3_code_behavior :
    bootstrapDHT false [0] (fun _ => none) (fun _ => true) = BootOutcome.crash := rfl

/-- C4: the peer connector never dials an address info whose identifier
equals the local host identifier: every connect call it issues names a
different peer. -/
theorem claim_C4 (nodehost : HostHandle) (connect : AddrInfo → Bool) (peers : List AddrInfo)
    (call : ConnectCall) (hcall : call ∈ handlePeerDiscovery nodehost connect peers) :
    call.peerInfo.ID ≠ nodehost.ID := by
  induction peers with
  | nil => simp [handlePeerDiscovery] at hcall
  | cons p rest ih =>
    rw [handlePeerDiscovery] at hcall
    by_cases h : p.ID = nodehost.ID
    · rw [if_pos h] at hcall
      exact ih hcall
    · rw [if_neg h] at hcall
      rcases List.mem_cons.mp hcall with hc | hc
      · rw [hc]
        exact h
      · exact ih hc

/-- Witness for C4: the sole connect call of a run whose channel held a
remote peer and a copy of the local node names the remote peer. -/
theorem claim_C4_witness :
    ({ ctx := ConnCtx.background, peerInfo := ⟨7, [1]⟩, ok := true } : ConnectCall).peerInfo.ID ≠
      (⟨5⟩ : HostHandle).ID :=
  claim_C4 ⟨5⟩ (fun _ => true) [⟨7, [1]⟩, ⟨5, [2]⟩] _ (by decide)

/-- C5: the peer connector dials every non-self entry of the discovered
sequence whatever the outcomes of earlier dials (the dialled peers do not
depend on the dial-outcome oracle), and the dials are exactly the
non-self entries of the sequence up to its closure, in order — nothing is
dialled after the closed sequence ends. -/
theorem claim_C5 (nodehost : HostHandle) (connect1 connect2 : AddrInfo → Bool)
    (peers : List AddrInfo) :
    (handlePeerDiscovery nodehost connect1 peers).map ConnectCall.peerInfo =
      (handlePeerDiscovery nodehost connect2 peers).map ConnectCall.peerInfo ∧
    (handlePeerDiscovery nodehost connect1 peers).map ConnectCall.peerInfo =
      peers.filter (fun p => p.ID != nodehost.ID) :=
  ⟨(hpd_map_peerInfo nodehost connect1 peers).trans
      (hpd_map_peerInfo nodehost connect2 peers).symm,
    hpd_map_peerInfo nodehost connect1 peers⟩

/-- C6: a `FindPeers` failure aborts `AdvertiseConnect` fatally before
any handler is spawned; a `Provide` failure aborts `AnnounceConnect`
fatally before the provider query and before any handler is spawned; a
failure of the initial DHT bootstrap protocol aborts the joiner fatally
before any bootstrap connection attempt. -/
theorem claim_C6 (p2p : P2P) (env : DiscoveryEnv) (e1 e2 : String)
    (entries : List BootEntry) (parse : BootEntry → Option AddrInfo)
    (connect : AddrInfo → Bool)
    (h1 : env.findPeersErr = some e1) (h2 : env.provideErr = some e2) :
    (AdvertiseConnect p2p env).2.1 = Outcome.fatal ∧
    hasSpawn (AdvertiseConnect p2p env).2.2 = false ∧
    (AnnounceConnect p2p env).2.1 = Outcome.fatal ∧
    hasSpawn (AnnounceConnect p2p env).2.2 = false ∧
    hasFindProviders (AnnounceConnect p2p env).2.2 = false ∧
    bootstrapDHT true entries parse connect = BootOutcome.fatal := by
  refine ⟨?_, ?_, ?_, ?_, ?_, ?_⟩
  · simp [AdvertiseConnect, h1]
  · simp [AdvertiseConnect, h1, hasSpawn]
  · simp [AnnounceConnect, generateCID_eq, h2]
  · simp [AnnounceConnect, generateCID_eq, h2, hasSpawn]
  · simp [AnnounceConnect, generateCID_eq, h2, hasFindProviders]
  · rfl

/-- Witness for C6 in the doubly failing environment. -/
theorem claim_C6_witness :
    (AdvertiseConnect sampleP2P envFatal).2.1 = Outcome.fatal ∧
    hasSpawn (AdvertiseConnect sampleP2P envFatal).2.2 = false ∧
    (AnnounceConnect sampleP2P envFatal).2.1 = Outcome.fatal ∧
    hasSpawn (AnnounceConnect sampleP2P envFatal).2.2 = false ∧
    hasFindProviders (AnnounceConnect sampleP2P envFatal).2.2 = false ∧
    bootstrapDHT true [1] (fun e => some ⟨e, []⟩) (fun _ => true) = BootOutcome.fatal :=
  claim_C6 sampleP2P envFatal "no peers" "provide refused" [1]
    (fun e => some ⟨e, []⟩) (fun _ => true) rfl rfl

/-- C7 refuted as stated: when `Advertise` fails, no log line of the run
carries the advertisement error — the error value is dead the moment
`err` is overwritten by the `FindPeers` call — yet the run proceeds
normally. -/
theorem claim_C7_counterexample :
    envAdvFail.advertiseErr = some "advertise failed" ∧
    (AdvertiseConnect sampleP2P envAdvFail).2.1 = Outcome.ok ∧
    mentionsErr (AdvertiseConnect sampleP2P envAdvFail).2.2 "advertise failed" = false :=
  ⟨rfl, rfl, rfl⟩

/-- C7 as amended: when rendezvous `Advertise` fails, the failure is
silently discarded — it is neither logged nor escalated — and
`AdvertiseConnect` proceeds to `FindPeers` and spawns the
peer-connection handler regardless, without terminating the process. -/
theorem claim_C7 (p2p : P2P) (env : DiscoveryEnv) (e : String)
    (hadv : env.advertiseErr = some e) (hfp : env.findPeersErr = none) :
    (AdvertiseConnect p2p env).2.1 = Outcome.ok ∧
    Event.findPeersCall p2p.Ctx p2p.service ∈ (AdvertiseConnect p2p env).2.2 ∧
    hasSpawn (AdvertiseConnect p2p env).2.2 = true ∧
    mentionsErr (AdvertiseConnect p2p env).2.2 e = false := by
  refine ⟨?_, ?_, ?_, ?_⟩
  · simp [AdvertiseConnect, hfp]
  · simp [AdvertiseConnect, hfp]
  · simp [AdvertiseConnect, hfp, hasSpawn]
  · simp [AdvertiseConnect, hfp, hadv, mentionsErr]

/-- Witness for C7 in the environment whose advertisement fails. -/
theorem claim_C7_witness :
    (AdvertiseConnect sampleP2P envAdvFail).2.1 = Outcome.ok ∧
    Event.findPeersCall sampleP2P.Ctx sampleP2P.service ∈
      (AdvertiseConnect sampleP2P envAdvFail).2.2 ∧
    hasSpawn (AdvertiseConnect sampleP2P envAdvFail).2.2 = true ∧
    mentionsErr (AdvertiseConnect sampleP2P envAdvFail).2.2 "advertise failed" = false :=
  claim_C7 sampleP2P envAdvFail "advertise failed" rfl rfl

/-- C8: every dial of a discovered peer receives the fresh background
context — never the node root context — so the dials issued by the
spawned handler are identical across any two runs that differ only in
the state of the node root context. -/
theorem claim_C8 (p2p : P2P) (env : DiscoveryEnv) (c1 c2 : ContextState)
    (call : ConnectCall)
    (hcall : call ∈ handlerCallsOf (AdvertiseConnect { p2p with Ctx := c1 } env).2.2) :
    handlerCallsOf (AdvertiseConnect { p2p with Ctx := c1 } env).2.2 =
      handlerCallsOf (AdvertiseConnect { p2p with Ctx := c2 } env).2.2 ∧
    handlerCallsOf (AnnounceConnect { p2p with Ctx := c1 } env).2.2 =
      handlerCallsOf (AnnounceConnect { p2p with Ctx := c2 } env).2.2 ∧
    call.ctx = ConnCtx.background := by
  refine ⟨?_, ?_, ?_⟩
  · cases h : env.findPeersErr with
    | none =>
      rw [advertiseConnect_handlerCalls _ _ h, advertiseConnect_handlerCalls _ _ h]
    | some e => simp [AdvertiseConnect, h, handlerCallsOf]
  · cases h : env.provideErr with
    | none =>
      rw [announceConnect_handlerCalls _ _ h, announceConnect_handlerCalls _ _ h]
    | some e => simp [AnnounceConnect, generateCID_eq, h, handlerCallsOf]
  · cases h : env.findPeersErr with
    | none =>
      rw [advertiseConnect_handlerCalls _ _ h] at hcall
      exact hpd_ctx_background _ _ _ call hcall
    | some e =>
      simp [AdvertiseConnect, h, handlerCallsOf] at hcall

set_option maxRecDepth 32768 in
/-- Witness for C8: the dial of the remote peer in a successful run uses
the background context whether or not the node context was cancelled. -/
theorem claim_C8_witness :
    handlerCallsOf (AdvertiseConnect { sampleP2P with Ctx := ⟨false⟩ } envTwoPeers).2.2 =
      handlerCallsOf (AdvertiseConnect { sampleP2P with Ctx := ⟨true⟩ } envTwoPeers).2.2 ∧
    handlerCallsOf (AnnounceConnect { sampleP2P with Ctx := ⟨false⟩ } envTwoPeers).2.2 =
      handlerCallsOf (AnnounceConnect { sampleP2P with Ctx := ⟨true⟩ } envTwoPeers).2.2 ∧
    ({ ctx := ConnCtx.background, peerInfo := ⟨7, [1]⟩, ok := true } : ConnectCall).ctx =
      ConnCtx.background :=
  claim_C8 sampleP2P envTwoPeers ⟨false⟩ ⟨true⟩
    { ctx := ConnCtx.background, peerInfo := ⟨7, [1]⟩, ok := true } (by decide)

/-- C9: neither `AdvertiseConnect` nor `AnnounceConnect` modifies the
`P2P` structure: all six fields are identical before and after either
call. -/
theorem claim_C9 (p2p : P2P) (env : DiscoveryEnv) :
    ((AdvertiseConnect p2p env).1.Ctx = p2p.Ctx ∧
     (AdvertiseConnect p2p env).1.Host = p2p.Host ∧
     (AdvertiseConnect p2p env).1.KadDHT = p2p.KadDHT ∧
     (AdvertiseConnect p2p env).1.Discovery = p2p.Discovery ∧
     (AdvertiseConnect p2p env).1.PubSub = p2p.PubSub ∧
     (AdvertiseConnect p2p env).1.service = p2p.service) ∧
    ((AnnounceConnect p2p env).1.Ctx = p2p.Ctx ∧
     (AnnounceConnect p2p env).1.Host = p2p.Host ∧
     (AnnounceConnect p2p env).1.KadDHT = p2p.KadDHT ∧
     (AnnounceConnect p2p env).1.Discovery = p2p.Discovery ∧
     (AnnounceConnect p2p env).1.PubSub = p2p.PubSub ∧
     (AnnounceConnect p2p env).1.service = p2p.service) := by
  rw [advertiseConnect_p2p, announceConnect_p2p]
  exact ⟨⟨rfl, rfl, rfl, rfl, rfl, rfl⟩, ⟨rfl, rfl, rfl, rfl, rfl, rfl⟩⟩

/-- C10: the fatal branch of `generateCID` is unreachable: for every
string, decoding the base58 encoding of the 34-byte tag-prefixed digest
through `multihash.FromB58String` succeeds and yields exactly those
bytes, so `generateCID` is total. -/
theorem claim_C10 (s : String) :
    fromB58String (b58Encode (0x12 :: 0x20 :: sha256 (strBytes s))) =
      some (0x12 :: 0x20 :: sha256 (strBytes s)) ∧
    (generateCID s).isSome = true := by
  have hrt := b58_roundtrip 0x12 (0x20 :: sha256 (strBytes s)) (by omega) (by omega)
    (by
      intro x hx
      rcases List.mem_cons.mp hx with hx | hx
      · subst hx; omega
      · exact sha256_lt _ x hx)
  have hcast := castMultihash_tag _ (sha256_length (strBytes s))
  constructor
  · simp only [fromB58String, hrt, hcast]
  · rw [generateCID_eq]
    rfl

end IceFireP2P
